import Mathlib

/-!
Verification of the sale-transaction core of the `inventory-system` REST API.

This file gives a shallow embedding, in Lean 4, of the Go code that the
specification's claims are about:

* the sale service (`service/sale_serv.go`): `CreateSale`,
  `UpdateSaleStatus`, `restoreProductStock`;
* the product repository (`repository/product_repo.go`): `FindByID`,
  `CheckStock`, `UpdateStock`;
* the sale repository (`repository/sale_repo.go`): `CreateSale`,
  `CreateSaleItems`, `FindSaleByID`, `FindSaleItems`, `UpdateSaleStatus`,
  `GetSalesReport`;
* the report repository and service (`repository/report_repo.go`,
  `service/report_serv.go`): `GetSalesReport` with its date-range cap;
* the sale handler's pagination parsing (`handler/sale_hand.go`) and the
  pagination helper (`utils/pagination.go`).

Modelling conventions:
* UUIDs are modelled as `Nat` (requests carry already-parsed product ids);
* Go `float64` money amounts are modelled as `Rat` (the code only adds,
  multiplies and divides prices, so the algebraic structure is what matters);
* timestamps are `Int` nanoseconds like Go's `time.Time`/`time.Duration`;
  a calendar date parsed from a `YYYY-MM-DD` string is modelled as its day
  index, sent to a timestamp by `dateToTime` (midnight of that day);
* the SQL statements are modelled row-by-row over list-backed tables:
  a `WHERE` clause becomes a Boolean row predicate, `UPDATE` maps over the
  table touching exactly the matching rows, `RowsAffected() == 0` becomes
  an emptiness test of the matching rows;
* the outcome of the two `INSERT` statements of the sale-creation path
  (which can fail for storage-level reasons outside the model) and the
  values produced by `uuid.New()` / `time.Now()` are supplied by an
  explicit environment `Env`, one per call.
-/

namespace Inventory

/-- Sale status, from `model/sale.go` (`pending` / `completed` / `cancelled`). -/
inductive SaleStatus where
  | pending
  | completed
  | cancelled
  deriving DecidableEq, Repr

/-- A row of the `products` table, from `model/product.go` (the columns the
sale workflow touches). -/
structure Product where
  id : Nat
  name : String
  unitPrice : Rat
  costPrice : Rat
  stockQuantity : Int
  minStockLevel : Int
  createdAt : Int
  updatedAt : Int
  deletedAt : Option Int
  deriving DecidableEq, Repr

/-- A row of the `sales` table, from `model/sale.go`. -/
structure Sale where
  id : Nat
  invoiceNumber : String
  userId : Nat
  totalAmount : Rat
  status : SaleStatus
  createdAt : Int
  updatedAt : Int
  deletedAt : Option Int
  deriving DecidableEq, Repr

/-- A row of the `sale_items` table, from `model/sale.go`. -/
structure SaleItem where
  id : Nat
  saleId : Nat
  productId : Nat
  quantity : Int
  unitPrice : Rat
  totalPrice : Rat
  createdAt : Int
  deriving DecidableEq, Repr

/-- The database state the sale workflow reads and writes. -/
structure DB where
  products : List Product
  sales : List Sale
  saleItems : List SaleItem
  deriving DecidableEq, Repr

/-- Row predicate of `WHERE id = $1 AND deleted_at IS NULL` on `products`. -/
def prodMatch (pid : Nat) (p : Product) : Bool :=
  decide (p.id = pid ∧ p.deletedAt = none)

/-- Row predicate of `WHERE id = $1 AND deleted_at IS NULL AND
stock_quantity >= $2` on `products` (`productRepo.CheckStock`). -/
def stockMatch (pid : Nat) (requiredQuantity : Int) (p : Product) : Bool :=
  decide (p.id = pid ∧ p.deletedAt = none ∧ requiredQuantity ≤ p.stockQuantity)

/-- Row predicate of `WHERE id = $1 AND deleted_at IS NULL` on `sales`. -/
def saleMatch (sid : Nat) (s : Sale) : Bool :=
  decide (s.id = sid ∧ s.deletedAt = none)

/-- `productRepo.FindByID` (`repository/product_repo.go` lines 71-93):
`SELECT ... FROM products WHERE id = $1 AND deleted_at IS NULL`. -/
def findProductByID (db : DB) (pid : Nat) : Option Product :=
  db.products.find? (prodMatch pid)

/-- `productRepo.CheckStock` (`repository/product_repo.go` lines 365-393):
returns the product iff it exists, is not soft-deleted and has
`stock_quantity >= requiredQuantity`; any miss is the single error
"insufficient stock or product not found", modelled as `none`. -/
def checkStock (db : DB) (pid : Nat) (requiredQuantity : Int) : Option Product :=
  db.products.find? (stockMatch pid requiredQuantity)

/-- `productRepo.UpdateStock` (`repository/product_repo.go` lines 335-363):
rejects a negative quantity, then
`UPDATE products SET stock_quantity = $1, updated_at = $2
 WHERE id = $3 AND deleted_at IS NULL`,
erroring when no row was affected. -/
def updateStock (now : Int) (db : DB) (pid : Nat) (quantity : Int) :
    Except String DB :=
  if quantity < 0 then
    .error "stock quantity cannot be negative"
  else if db.products.any (prodMatch pid) then
    .ok { db with
          products := db.products.map fun p =>
            if prodMatch pid p then
              { p with stockQuantity := quantity, updatedAt := now }
            else p }
  else
    .error "product not found"

/-- `saleRepo.FindSaleByID` (`repository/sale_repo.go`):
`SELECT ... FROM sales WHERE id = $1 AND deleted_at IS NULL`. -/
def findSaleByID (db : DB) (sid : Nat) : Option Sale :=
  db.sales.find? (saleMatch sid)

/-- `saleRepo.FindSaleItems` (`repository/sale_repo.go`):
`SELECT ... FROM sale_items WHERE sale_id = $1 ORDER BY created_at`
(rows keep insertion order; all items of one sale share a timestamp). -/
def findSaleItems (db : DB) (sid : Nat) : List SaleItem :=
  db.saleItems.filter fun it => decide (it.saleId = sid)

/-- Effect of the row update in `saleRepo.UpdateSaleStatus`: every matching
sale row gets the new status and `updated_at`; everything else is kept. -/
def statusWrite (now : Int) (db : DB) (sid : Nat) (status : SaleStatus) : DB :=
  { db with
    sales := db.sales.map fun s =>
      if saleMatch sid s then
        { s with status := status, updatedAt := now }
      else s }

/-- `saleRepo.UpdateSaleStatus` (`repository/sale_repo.go` lines 501-516):
`UPDATE sales SET status = $1, updated_at = $2
 WHERE id = $3 AND deleted_at IS NULL`,
erroring when no row was affected. -/
def updateSaleStatusRepo (now : Int) (db : DB) (sid : Nat) (status : SaleStatus) :
    Except String DB :=
  if db.sales.any (saleMatch sid) then
    .ok (statusWrite now db sid status)
  else
    .error "sale not found"

/-- Per-call environment of `saleService.CreateSale`: the clock, the ids drawn
from `uuid.New()`, the invoice number derived from `time.Now()`, and the
success/failure outcome of the two `INSERT` statements (each a single SQL
statement, hence all-or-nothing at the storage layer). -/
structure Env where
  now : Int
  newSaleId : Nat
  itemIdBase : Nat
  invoiceNumber : String
  headerInsertOk : Bool
  itemsInsertOk : Bool
  deriving Repr

/-- `saleRepo.CreateSale` (`repository/sale_repo.go` lines 264-292): stamps
id and timestamps on the header, defaults an empty status to `completed`,
then runs one `INSERT INTO sales`; on a storage failure nothing is written. -/
def createSaleRepo (env : Env) (db : DB) (s : Sale) : Except String (Sale × DB) :=
  let stamped := { s with id := env.newSaleId,
                          createdAt := env.now, updatedAt := env.now }
  if env.headerInsertOk then
    .ok (stamped, { db with sales := db.sales ++ [stamped] })
  else
    .error "create sale failed"

/-- `saleRepo.CreateSaleItems` (`repository/sale_repo.go` lines 294-340):
rejects an empty batch, stamps ids and timestamps, then runs ONE batched
`INSERT INTO sale_items`; on a storage failure nothing is written. -/
def createSaleItemsRepo (env : Env) (db : DB) (items : List SaleItem) :
    Except String DB :=
  if items.isEmpty then
    .error "no items to insert"
  else if env.itemsInsertOk then
    .ok { db with
          saleItems := db.saleItems ++
            items.mapIdx fun i it =>
              { it with id := env.itemIdBase + i, createdAt := env.now } }
  else
    .error "create sale items failed"

/-- A line of the cart request, from `dto/sale/request.go`
(`SaleItemRequest`; the product id is already parsed from its UUID string). -/
structure SaleItemRequest where
  productId : Nat
  quantity : Int
  deriving DecidableEq, Repr

/-- The cart request, from `dto/sale/request.go` (`CreateSaleRequest`). -/
structure CreateSaleRequest where
  items : List SaleItemRequest
  deriving DecidableEq, Repr

/-- Error kinds produced by the embedded sale service (one constructor per
distinct `fmt.Errorf` site on the modelled paths of `service/sale_serv.go`). -/
inductive SaleErr where
  | validationFailed
  | emptySale
  | insufficientStock (productId : Nat)
  | createSaleFailed
  | createSaleItemsFailed
  | saleNotFound
  | invalidStatus (status : String)
  | updateStatusFailed
  deriving DecidableEq, Repr

/-- `utils.ValidateStruct` on `CreateSaleRequest`: the tags
`validate:"required,min=1,dive"` on `Items` and `validate:"required,min=1"`
on each `Quantity` require a non-empty item list with every quantity >= 1. -/
def validCreateSaleRequest (req : CreateSaleRequest) : Bool :=
  !req.items.isEmpty && req.items.all fun it => decide (1 ≤ it.quantity)

/-- The stock-check loop of `saleService.CreateSale` (`service/sale_serv.go`
lines 51-79): per item in order, `CheckStock`, accumulate
`itemTotal = product.UnitPrice * quantity` into the running total and build
the in-memory `model.SaleItem` (sale id and row id not yet assigned); the
first failing check aborts the whole call. -/
def processItems (db : DB) : List SaleItemRequest →
    Except SaleErr (Rat × List SaleItem)
  | [] => .ok (0, [])
  | itemReq :: rest =>
    match checkStock db itemReq.productId itemReq.quantity with
    | none => .error (.insufficientStock itemReq.productId)
    | some product =>
      let itemTotal := product.unitPrice * (itemReq.quantity : Rat)
      match processItems db rest with
      | .error e => .error e
      | .ok (restTotal, restItems) =>
        .ok (itemTotal + restTotal,
             { id := 0, saleId := 0, productId := itemReq.productId,
               quantity := itemReq.quantity, unitPrice := product.unitPrice,
               totalPrice := itemTotal, createdAt := 0 } :: restItems)

/-- One step of the stock-deduction loop of `saleService.CreateSale`
(`service/sale_serv.go` lines 107-125): `FindByID`, subtract the sold
quantity, clamp a negative result to 0, `UpdateStock`; errors are logged
and skipped (`continue`), leaving the state unchanged for that item. -/
def deductStockForItem (now : Int) (db : DB) (item : SaleItem) : DB :=
  match findProductByID db item.productId with
  | none => db
  | some product =>
    let newStock := product.stockQuantity - item.quantity
    let newStock := if newStock < 0 then 0 else newStock
    match updateStock now db item.productId newStock with
    | .error _ => db
    | .ok db1 => db1

/-- `saleService.CreateSale` (`service/sale_serv.go` lines 39-138):
validate, reject an empty cart, run the check loop, insert the header,
link and insert the items, then deduct stock item by item.  Returns the
created header and linked items together with the resulting state; every
error path returns the state as it stood when the error occurred. -/
def createSale (env : Env) (db : DB) (req : CreateSaleRequest) (userId : Nat) :
    (Except SaleErr (Sale × List SaleItem)) × DB :=
  if !validCreateSaleRequest req then (.error .validationFailed, db)
  else if req.items.isEmpty then (.error .emptySale, db)
  else
    match processItems db req.items with
    | .error e => (.error e, db)
    | .ok (totalAmount, saleItems) =>
      let newSale : Sale :=
        { id := 0, invoiceNumber := env.invoiceNumber, userId := userId,
          totalAmount := totalAmount, status := .completed,
          createdAt := 0, updatedAt := 0, deletedAt := none }
      match createSaleRepo env db newSale with
      | .error _ => (.error .createSaleFailed, db)
      | .ok (savedSale, db1) =>
        let linkedItems := saleItems.map fun it => { it with saleId := savedSale.id }
        match createSaleItemsRepo env db1 linkedItems with
        | .error _ => (.error .createSaleItemsFailed, db1)
        | .ok db2 =>
          (.ok (savedSale, linkedItems),
           linkedItems.foldl (deductStockForItem env.now) db2)

/-- One step of `saleService.restoreProductStock` (`service/sale_serv.go`
lines 348-373): `FindByID`, add the item quantity back, `UpdateStock`;
errors are logged and skipped, leaving the state unchanged for that item. -/
def restoreStockForItem (now : Int) (db : DB) (item : SaleItem) : DB :=
  match findProductByID db item.productId with
  | none => db
  | some product =>
    match updateStock now db item.productId
        (product.stockQuantity + item.quantity) with
    | .error _ => db
    | .ok db1 => db1

/-- `saleService.restoreProductStock` (`service/sale_serv.go` lines 348-373):
restore stock for every line item of the sale, in order. -/
def restoreProductStock (now : Int) (db : DB) (saleId : Nat) : DB :=
  (findSaleItems db saleId).foldl (restoreStockForItem now) db

/-- The `switch req.Status` of `saleService.UpdateSaleStatus`
(`service/sale_serv.go` lines 203-214). -/
def parseSaleStatus (status : String) : Option SaleStatus :=
  if status = "pending" then some .pending
  else if status = "completed" then some .completed
  else if status = "cancelled" then some .cancelled
  else none

/-- `utils.ValidateStruct` on `UpdateSaleStatusRequest`: the tag
`validate:"required,oneof=pending completed cancelled"`. -/
def validStatusRequest (status : String) : Bool :=
  status == "pending" || status == "completed" || status == "cancelled"

/-- `saleService.UpdateSaleStatus` (`service/sale_serv.go` lines 191-230):
validate, load the sale, parse the status, write the status row, and only
for a `completed -> cancelled` transition restore product stock; finally
re-read the sale for the response. -/
def updateSaleStatus (now : Int) (db : DB) (sid : Nat) (reqStatus : String) :
    (Except SaleErr Sale) × DB :=
  if !validStatusRequest reqStatus then (.error .validationFailed, db)
  else
    match findSaleByID db sid with
    | none => (.error .saleNotFound, db)
    | some existingSale =>
      match parseSaleStatus reqStatus with
      | none => (.error (.invalidStatus reqStatus), db)
      | some newStatus =>
        match updateSaleStatusRepo now db sid newStatus with
        | .error _ => (.error .updateStatusFailed, db)
        | .ok db1 =>
          let db2 :=
            if existingSale.status = .completed ∧ newStatus = .cancelled then
              restoreProductStock now db1 sid
            else db1
          match findSaleByID db2 sid with
          | none => (.error .saleNotFound, db2)
          | some updated => (.ok updated, db2)

/-- The aggregate row of the sales-report query, from `model/sale.go`
(`SalesReport`) / `dto/report/response.go`. -/
structure SalesReport where
  totalSales : Int
  totalRevenue : Rat
  totalItemsSold : Int
  averageSale : Rat
  startDate : Int
  endDate : Int
  deriving DecidableEq, Repr

/-- Row predicate of the report query's `WHERE` clause
(`repository/report_repo.go` lines 83-86): not soft-deleted, status
`completed`, `created_at BETWEEN $1 AND $2` (inclusive on both ends). -/
def qualifiesForReport (startT endT : Int) (s : Sale) : Bool :=
  decide (s.deletedAt = none ∧ s.status = SaleStatus.completed ∧
          startT ≤ s.createdAt ∧ s.createdAt ≤ endT)

/-- `reportRepo.GetSalesReport` (`repository/report_repo.go` lines 71-106;
the same SQL also lives in `saleRepo.GetSalesReport`): over the qualifying
sales, `COUNT(*)`, `SUM(total_amount)`, the nested per-sale
`SUM(quantity)` of line items, and the `CASE WHEN COUNT(*) > 0` average. -/
def getSalesReportRepo (db : DB) (startT endT : Int) : SalesReport :=
  let qualifying := db.sales.filter (qualifiesForReport startT endT)
  let totalSales : Int := qualifying.length
  let totalRevenue : Rat := (qualifying.map Sale.totalAmount).sum
  let totalItemsSold : Int :=
    (qualifying.map fun s =>
      ((db.saleItems.filter fun it => decide (it.saleId = s.id)).map
        SaleItem.quantity).sum).sum
  let averageSale : Rat :=
    if 0 < totalSales then totalRevenue / (totalSales : Rat) else 0
  { totalSales := totalSales, totalRevenue := totalRevenue,
    totalItemsSold := totalItemsSold, averageSale := averageSale,
    startDate := startT, endDate := endT }

/-- Nanoseconds in a day, matching Go's `time.Duration` unit. -/
def nsPerDay : Int := 86400000000000

/-- `365 * 24 * time.Hour`, the `maxRange` of `reportService.GetSalesReport`
(`service/report_serv.go` line 74). -/
def maxReportRange : Int := 365 * 24 * 3600000000000

/-- Timestamp (midnight) of a day index: what
`time.Parse("2006-01-02", s)` yields for the date string naming that day. -/
def dateToTime (day : Int) : Int := day * nsPerDay

/-- Error kinds of the embedded report service, one per `fmt.Errorf` site of
`reportService.GetSalesReport` (`service/report_serv.go` lines 51-92). -/
inductive ReportErr where
  | invalidStartDate
  | invalidEndDate
  | startAfterEnd
  | rangeTooLong
  deriving DecidableEq, Repr

/-- `reportService.GetSalesReport` (`service/report_serv.go` lines 51-92):
parse the two dates (`none` models an unparseable string, `some d` a string
parsing to day index `d`), reject `startDate > endDate`, reject a span
exceeding `365 * 24h`, then delegate to the repository. -/
def getSalesReportService (db : DB) (startReq endReq : Option Int) :
    Except ReportErr SalesReport :=
  match startReq with
  | none => .error .invalidStartDate
  | some startDay =>
    match endReq with
    | none => .error .invalidEndDate
    | some endDay =>
      let startT := dateToTime startDay
      let endT := dateToTime endDay
      if endT < startT then .error .startAfterEnd
      else if maxReportRange < endT - startT then .error .rangeTooLong
      else .ok (getSalesReportRepo db startT endT)

/-- Error kinds of the pagination parsing in `SaleHandler.FindAll`
(`handler/sale_hand.go` lines 107-125); both are HTTP 400 Bad Request. -/
inductive PageErr where
  | invalidPage
  | invalidLimit
  deriving DecidableEq, Repr

/-- The page-parameter branch of `SaleHandler.FindAll` (`handler/sale_hand.go`
lines 104-115): absent means default 1; a present value is accepted iff
`p > 0`, else the request is rejected. -/
def parsePageParam (pageParam : Option Int) : Except PageErr Int :=
  match pageParam with
  | none => .ok 1
  | some p => if 0 < p then .ok p else .error .invalidPage

/-- The limit-parameter branch of `SaleHandler.FindAll`
(`handler/sale_hand.go` lines 105, 117-125): absent means default 10; a
present value is accepted iff `l > 0 && l <= 100`, else rejected. -/
def parseLimitParam (limitParam : Option Int) : Except PageErr Int :=
  match limitParam with
  | none => .ok 10
  | some l =>
    if 0 < l ∧ l ≤ 100 then .ok l else .error .invalidLimit

/-- The pagination parsing of `SaleHandler.FindAll` (`handler/sale_hand.go`
lines 98-125): the page parameter is examined first, then the limit; a
`none` models an absent query parameter. -/
def parseListParams (pageParam limitParam : Option Int) :
    Except PageErr (Int × Int) :=
  match parsePageParam pageParam with
  | .error e => .error e
  | .ok page =>
    match parseLimitParam limitParam with
    | .error e => .error e
    | .ok limit => .ok (page, limit)

/-- Pagination defaults/clamps of `utils.NewPagination`
(`utils/pagination.go` lines 102-117); the sale service runs this after the
handler has already rejected out-of-range values. -/
def newPagination (page limit : Int) : Int × Int :=
  let page := if page < 1 then 1 else page
  let limit := if limit < 1 then 10 else limit
  let limit := if 100 < limit then 100 else limit
  (page, limit)

/-! ## Observation functions and spec-side definitions -/

/-- Stock on hand of a product, as the sale workflow observes it
(first live row with that id). -/
def stockOf (db : DB) (pid : Nat) : Option Int :=
  (findProductByID db pid).map Product.stockQuantity

/-- All product rows carry non-negative stock (the invariant
`productRepo.UpdateStock` maintains by rejecting negative quantities). -/
def stocksNonneg (db : DB) : Prop :=
  ∀ p ∈ db.products, 0 ≤ p.stockQuantity

/-- Subtraction clamped at zero, the shape of the deduction in
`saleService.CreateSale` lines 116-119. -/
def clampSub (v q : Int) : Int :=
  if v - q < 0 then 0 else v - q

/-- Total quantity a list of line items contributes for one product. -/
def soldInItems (items : List SaleItem) (pid : Nat) : Int :=
  ((items.filter fun it => decide (it.productId = pid)).map
    SaleItem.quantity).sum

/-- Total quantity a cart request asks for, per product. -/
def soldQty (req : CreateSaleRequest) (pid : Nat) : Int :=
  ((req.items.filter fun r => decide (r.productId = pid)).map
    SaleItemRequest.quantity).sum

/-- Quantity a product contributed to a sale's stored line items. -/
def restoredQty (db : DB) (sid : Nat) (pid : Nat) : Int :=
  soldInItems (findSaleItems db sid) pid

/-- The sales a report over `[startT, endT]` is meant to cover, in the
words of the specification: status `completed`, creation timestamp in the
inclusive range (sales are never soft-deleted in this model). -/
def reportQualifying (db : DB) (startT endT : Int) : List Sale :=
  db.sales.filter fun s =>
    decide (s.status = SaleStatus.completed ∧
            startT ≤ s.createdAt ∧ s.createdAt ≤ endT)

/-- Sum of line-item quantities of one sale, in the words of the
specification. -/
def saleQuantitySum (db : DB) (s : Sale) : Int :=
  ((db.saleItems.filter fun it => decide (it.saleId = s.id)).map
    SaleItem.quantity).sum

/-! ## Generic list lemmas -/

theorem find?_map_ite_self {α : Type} (sel : α → Bool) (upd : α → α)
    (hpres : ∀ a, sel (upd a) = sel a) :
    ∀ l : List α,
      (l.map fun a => if sel a then upd a else a).find? sel
        = (l.find? sel).map upd
  | [] => rfl
  | a :: l => by
    by_cases h : sel a = true
    · rw [List.map_cons, if_pos h,
        List.find?_cons_of_pos _ ((hpres a).trans h),
        List.find?_cons_of_pos _ h, Option.map_some']
    · rw [List.map_cons, if_neg h, List.find?_cons_of_neg _ h,
        List.find?_cons_of_neg _ h]
      exact find?_map_ite_self sel upd hpres l

theorem find?_map_ite_other {α : Type} (sel sel' : α → Bool) (upd : α → α)
    (hpres : ∀ a, sel' (upd a) = sel' a)
    (hdisj : ∀ a, sel a = true → sel' a = false) :
    ∀ l : List α,
      (l.map fun a => if sel a then upd a else a).find? sel' = l.find? sel'
  | [] => rfl
  | a :: l => by
    by_cases h : sel a = true
    · have h' : sel' a = false := hdisj a h
      rw [List.map_cons, if_pos h,
        List.find?_cons_of_neg _ (by rw [hpres a, h']; simp),
        List.find?_cons_of_neg _ (by rw [h']; simp)]
      exact find?_map_ite_other sel sel' upd hpres hdisj l
    · by_cases h' : sel' a = true
      · rw [List.map_cons, if_neg h, List.find?_cons_of_pos _ h',
          List.find?_cons_of_pos _ h']
      · rw [List.map_cons, if_neg h, List.find?_cons_of_neg _ h',
          List.find?_cons_of_neg _ h']
        exact find?_map_ite_other sel sel' upd hpres hdisj l

/-! ## Elimination lemmas for the repository operations -/

theorem updateStock_ok_elim {now : Int} {db : DB} {pid : Nat} {q : Int}
    {db' : DB} (h : updateStock now db pid q = .ok db') :
    0 ≤ q ∧ db.products.any (prodMatch pid) = true ∧
    db' = { db with
            products := db.products.map fun p =>
              if prodMatch pid p then
                { p with stockQuantity := q, updatedAt := now }
              else p } := by
  unfold updateStock at h
  split at h
  · cases h
  · split at h
    · next hneg hany =>
      injection h with h
      exact ⟨by omega, hany, h.symm⟩
    · cases h

theorem updateStock_ok_of {now : Int} {db : DB} {pid : Nat} {q : Int}
    (hq : 0 ≤ q) (hany : db.products.any (prodMatch pid) = true) :
    updateStock now db pid q
      = .ok { db with
              products := db.products.map fun p =>
                if prodMatch pid p then
                  { p with stockQuantity := q, updatedAt := now }
                else p } := by
  unfold updateStock
  rw [if_neg (by omega), if_pos hany]

theorem updateSaleStatusRepo_ok_elim {now : Int} {db : DB} {sid : Nat}
    {status : SaleStatus} {db' : DB}
    (h : updateSaleStatusRepo now db sid status = .ok db') :
    db' = statusWrite now db sid status := by
  unfold updateSaleStatusRepo at h
  split at h
  · injection h with h
    exact h.symm
  · cases h

theorem updateSaleStatusRepo_ok_of {now : Int} {db : DB} {sid : Nat}
    {status : SaleStatus}
    (hany : db.sales.any (saleMatch sid) = true) :
    updateSaleStatusRepo now db sid status
      = .ok (statusWrite now db sid status) := by
  unfold updateSaleStatusRepo
  rw [if_pos hany]

theorem prodMatch_stock_update (pid : Nat) (q now : Int) (p : Product) :
    prodMatch pid { p with stockQuantity := q, updatedAt := now }
      = prodMatch pid p := rfl

theorem saleMatch_status_update (sid : Nat) (st : SaleStatus) (now : Int)
    (s : Sale) :
    saleMatch sid { s with status := st, updatedAt := now }
      = saleMatch sid s := rfl

theorem findProduct_updateStock_self {now : Int} {db : DB} {pid : Nat}
    {q : Int} {db' : DB} (h : updateStock now db pid q = .ok db') :
    findProductByID db' pid
      = (findProductByID db pid).map fun p =>
          { p with stockQuantity := q, updatedAt := now } := by
  obtain ⟨-, -, rfl⟩ := updateStock_ok_elim h
  exact find?_map_ite_self (prodMatch pid) _
    (prodMatch_stock_update pid q now) db.products

theorem findProduct_updateStock_other {now : Int} {db : DB} {pid : Nat}
    {q : Int} {db' : DB} (h : updateStock now db pid q = .ok db')
    {pid' : Nat} (hne : pid' ≠ pid) :
    findProductByID db' pid' = findProductByID db pid' := by
  obtain ⟨-, -, rfl⟩ := updateStock_ok_elim h
  refine find?_map_ite_other (prodMatch pid) (prodMatch pid') _
    (prodMatch_stock_update pid' q now) (fun p hp => ?_) db.products
  have hid : p.id = pid := (of_decide_eq_true hp).1
  refine decide_eq_false ?_
  rintro ⟨h1, -⟩
  exact hne (h1 ▸ hid ▸ rfl)

theorem updateStock_frame {now : Int} {db : DB} {pid : Nat} {q : Int}
    {db' : DB} (h : updateStock now db pid q = .ok db') :
    db'.sales = db.sales ∧ db'.saleItems = db.saleItems := by
  obtain ⟨-, -, rfl⟩ := updateStock_ok_elim h
  exact ⟨rfl, rfl⟩

theorem updateStock_preserves_nonneg {now : Int} {db : DB} {pid : Nat}
    {q : Int} {db' : DB} (h : updateStock now db pid q = .ok db')
    (h0 : stocksNonneg db) : stocksNonneg db' := by
  obtain ⟨hq, -, rfl⟩ := updateStock_ok_elim h
  intro p hp
  obtain ⟨p0, hp0, rfl⟩ := List.mem_map.mp hp
  by_cases hm : prodMatch pid p0
  · rw [if_pos hm]; exact hq
  · rw [if_neg hm]; exact h0 p0 hp0

theorem any_of_find?_some {α : Type} {l : List α} {p : α → Bool} {a : α}
    (h : l.find? p = some a) : l.any p = true :=
  List.any_eq_true.mpr ⟨a, List.mem_of_find?_eq_some h, List.find?_some h⟩


/-! ## Effect of one deduction step -/

theorem stockOf_deduct_self (now : Int) (db : DB) (item : SaleItem) :
    stockOf (deductStockForItem now db item) item.productId
      = (stockOf db item.productId).map fun v => clampSub v item.quantity := by
  cases hf : findProductByID db item.productId with
  | none => simp [deductStockForItem, stockOf, hf]
  | some p =>
    have hok := @updateStock_ok_of now db item.productId
      (if p.stockQuantity - item.quantity < 0 then 0
       else p.stockQuantity - item.quantity)
      (by split <;> omega) (any_of_find?_some hf)
    have hself := findProduct_updateStock_self hok
    simp only [deductStockForItem, hf, hok]
    simp only [stockOf, hself, hf, Option.map_some']
    rfl

theorem stockOf_deduct_other (now : Int) (db : DB) (item : SaleItem)
    {pid : Nat} (hne : pid ≠ item.productId) :
    stockOf (deductStockForItem now db item) pid = stockOf db pid := by
  cases hf : findProductByID db item.productId with
  | none => simp [deductStockForItem, hf]
  | some p =>
    have hok := @updateStock_ok_of now db item.productId
      (if p.stockQuantity - item.quantity < 0 then 0
       else p.stockQuantity - item.quantity)
      (by split <;> omega) (any_of_find?_some hf)
    have hother := findProduct_updateStock_other hok hne
    simp only [deductStockForItem, hf, hok]
    simp only [stockOf, hother]

theorem deduct_frame (now : Int) (db : DB) (item : SaleItem) :
    (deductStockForItem now db item).sales = db.sales ∧
    (deductStockForItem now db item).saleItems = db.saleItems := by
  cases hf : findProductByID db item.productId with
  | none => simp [deductStockForItem, hf]
  | some p =>
    simp only [deductStockForItem, hf]
    cases hu : updateStock now db item.productId
        (if p.stockQuantity - item.quantity < 0 then 0
         else p.stockQuantity - item.quantity) with
    | error e => exact ⟨rfl, rfl⟩
    | ok db1 => exact updateStock_frame hu

theorem deduct_preserves_nonneg (now : Int) (db : DB) (item : SaleItem)
    (h0 : stocksNonneg db) :
    stocksNonneg (deductStockForItem now db item) := by
  cases hf : findProductByID db item.productId with
  | none => simpa [deductStockForItem, hf] using h0
  | some p =>
    simp only [deductStockForItem, hf]
    cases hu : updateStock now db item.productId
        (if p.stockQuantity - item.quantity < 0 then 0
         else p.stockQuantity - item.quantity) with
    | error e => exact h0
    | ok db1 => exact updateStock_preserves_nonneg hu h0

/-! ## Effect of one restoration step -/

theorem stockOf_restore_self (now : Int) (db : DB) (item : SaleItem)
    (h0 : stocksNonneg db) (hq : 0 ≤ item.quantity) :
    stockOf (restoreStockForItem now db item) item.productId
      = (stockOf db item.productId).map (· + item.quantity) := by
  cases hf : findProductByID db item.productId with
  | none => simp [restoreStockForItem, stockOf, hf]
  | some p =>
    have hmem : p ∈ db.products := List.mem_of_find?_eq_some hf
    have hok := @updateStock_ok_of now db item.productId
      (p.stockQuantity + item.quantity)
      (by have := h0 p hmem; omega) (any_of_find?_some hf)
    have hself := findProduct_updateStock_self hok
    simp only [restoreStockForItem, hf, hok]
    simp only [stockOf, hself, hf, Option.map_some']

theorem stockOf_restore_other (now : Int) (db : DB) (item : SaleItem)
    (h0 : stocksNonneg db) (hq : 0 ≤ item.quantity)
    {pid : Nat} (hne : pid ≠ item.productId) :
    stockOf (restoreStockForItem now db item) pid = stockOf db pid := by
  cases hf : findProductByID db item.productId with
  | none => simp [restoreStockForItem, hf]
  | some p =>
    have hmem : p ∈ db.products := List.mem_of_find?_eq_some hf
    have hok := @updateStock_ok_of now db item.productId
      (p.stockQuantity + item.quantity)
      (by have := h0 p hmem; omega) (any_of_find?_some hf)
    have hother := findProduct_updateStock_other hok hne
    simp only [restoreStockForItem, hf, hok]
    simp only [stockOf, hother]

theorem restore_frame (now : Int) (db : DB) (item : SaleItem) :
    (restoreStockForItem now db item).sales = db.sales ∧
    (restoreStockForItem now db item).saleItems = db.saleItems := by
  cases hf : findProductByID db item.productId with
  | none => simp [restoreStockForItem, hf]
  | some p =>
    simp only [restoreStockForItem, hf]
    cases hu : updateStock now db item.productId
        (p.stockQuantity + item.quantity) with
    | error e => exact ⟨rfl, rfl⟩
    | ok db1 => exact updateStock_frame hu

theorem restore_preserves_nonneg (now : Int) (db : DB) (item : SaleItem)
    (h0 : stocksNonneg db) :
    stocksNonneg (restoreStockForItem now db item) := by
  cases hf : findProductByID db item.productId with
  | none => simpa [restoreStockForItem, hf] using h0
  | some p =>
    simp only [restoreStockForItem, hf]
    cases hu : updateStock now db item.productId
        (p.stockQuantity + item.quantity) with
    | error e => exact h0
    | ok db1 => exact updateStock_preserves_nonneg hu h0

/-! ## The whole deduction and restoration loops -/

theorem clampSub_clampSub (v q s : Int) (hs : 0 ≤ s) :
    clampSub (clampSub v q) s = clampSub v (q + s) := by
  unfold clampSub
  split_ifs <;> omega

theorem clampSub_zero (v : Int) (hv : 0 ≤ v) : clampSub v 0 = v := by
  unfold clampSub
  split <;> omega

theorem soldInItems_nil (pid : Nat) : soldInItems [] pid = 0 := rfl

theorem soldInItems_cons (it : SaleItem) (items : List SaleItem) (pid : Nat) :
    soldInItems (it :: items) pid
      = (if it.productId = pid then it.quantity else 0)
          + soldInItems items pid := by
  unfold soldInItems
  by_cases h : it.productId = pid
  · rw [if_pos h, List.filter_cons_of_pos (by simpa using h), List.map_cons,
      List.sum_cons]
  · rw [if_neg h, List.filter_cons_of_neg (by simpa using h), zero_add]

theorem soldInItems_nonneg (items : List SaleItem) (pid : Nat)
    (h : ∀ it ∈ items, 0 ≤ it.quantity) : 0 ≤ soldInItems items pid := by
  induction items with
  | nil => simp [soldInItems_nil]
  | cons it items ih =>
    rw [soldInItems_cons]
    have h1 := h it (List.mem_cons_self it items)
    have h2 := ih fun x hx => h x (List.mem_cons_of_mem it hx)
    split <;> omega

theorem stockOf_nonneg (db : DB) (pid : Nat) (h0 : stocksNonneg db)
    {v : Int} (h : stockOf db pid = some v) : 0 ≤ v := by
  unfold stockOf findProductByID at h
  cases hf : db.products.find? (prodMatch pid) with
  | none => rw [hf] at h; cases h
  | some p =>
    rw [hf, Option.map_some'] at h
    injection h with h
    exact h ▸ h0 p (List.mem_of_find?_eq_some hf)

theorem stockOf_deduct_foldl (now : Int) :
    ∀ (items : List SaleItem) (db : DB) (pid : Nat),
      stocksNonneg db → (∀ it ∈ items, 0 ≤ it.quantity) →
      stockOf (items.foldl (deductStockForItem now) db) pid
        = (stockOf db pid).map fun v => clampSub v (soldInItems items pid)
  | [], db, pid, h0, _ => by
    rw [List.foldl_nil]
    cases hv : stockOf db pid with
    | none => rfl
    | some v =>
      rw [Option.map_some', soldInItems_nil,
        clampSub_zero v (stockOf_nonneg db pid h0 hv)]
  | it :: items, db, pid, h0, hq => by
    rw [List.foldl_cons]
    have h0' : stocksNonneg (deductStockForItem now db it) :=
      deduct_preserves_nonneg now db it h0
    have hq' : ∀ x ∈ items, 0 ≤ x.quantity :=
      fun x hx => hq x (List.mem_cons_of_mem it hx)
    have ih := stockOf_deduct_foldl now items (deductStockForItem now db it)
      pid h0' hq'
    rw [ih, soldInItems_cons]
    by_cases hp : it.productId = pid
    · subst hp
      rw [if_pos rfl, stockOf_deduct_self now db it, Option.map_map]
      cases hv : stockOf db it.productId with
      | none => rfl
      | some v =>
        rw [Option.map_some', Option.map_some', Function.comp_apply,
          clampSub_clampSub v it.quantity (soldInItems items it.productId)
            (soldInItems_nonneg items it.productId hq')]
    · rw [if_neg hp, stockOf_deduct_other now db it fun h => hp h.symm,
        zero_add]

theorem deduct_foldl_frame (now : Int) (items : List SaleItem) (db : DB) :
    ((items.foldl (deductStockForItem now) db).sales = db.sales) ∧
    ((items.foldl (deductStockForItem now) db).saleItems = db.saleItems) := by
  induction items generalizing db with
  | nil => exact ⟨rfl, rfl⟩
  | cons it items ih =>
    rw [List.foldl_cons]
    obtain ⟨hs, hi⟩ := ih (deductStockForItem now db it)
    obtain ⟨hs', hi'⟩ := deduct_frame now db it
    exact ⟨hs.trans hs', hi.trans hi'⟩

theorem stockOf_restore_foldl (now : Int) :
    ∀ (items : List SaleItem) (db : DB) (pid : Nat),
      stocksNonneg db → (∀ it ∈ items, 0 ≤ it.quantity) →
      stockOf (items.foldl (restoreStockForItem now) db) pid
        = (stockOf db pid).map (· + soldInItems items pid)
  | [], db, pid, _, _ => by
    rw [List.foldl_nil, soldInItems_nil]
    cases stockOf db pid <;> simp
  | it :: items, db, pid, h0, hq => by
    rw [List.foldl_cons]
    have hqit : 0 ≤ it.quantity := hq it (List.mem_cons_self it items)
    have h0' : stocksNonneg (restoreStockForItem now db it) :=
      restore_preserves_nonneg now db it h0
    have hq' : ∀ x ∈ items, 0 ≤ x.quantity :=
      fun x hx => hq x (List.mem_cons_of_mem it hx)
    have ih := stockOf_restore_foldl now items (restoreStockForItem now db it)
      pid h0' hq'
    rw [ih, soldInItems_cons]
    by_cases hp : it.productId = pid
    · subst hp
      rw [if_pos rfl, stockOf_restore_self now db it h0 hqit, Option.map_map]
      cases stockOf db it.productId with
      | none => rfl
      | some v =>
        rw [Option.map_some', Option.map_some', Function.comp_apply]
        have hassoc : v + it.quantity + soldInItems items it.productId
            = v + (it.quantity + soldInItems items it.productId) := by ring
        rw [hassoc]
    · rw [if_neg hp,
        stockOf_restore_other now db it h0 hqit fun h => hp h.symm, zero_add]

theorem restore_foldl_frame (now : Int) (items : List SaleItem) (db : DB) :
    ((items.foldl (restoreStockForItem now) db).sales = db.sales) ∧
    ((items.foldl (restoreStockForItem now) db).saleItems = db.saleItems) := by
  induction items generalizing db with
  | nil => exact ⟨rfl, rfl⟩
  | cons it items ih =>
    rw [List.foldl_cons]
    obtain ⟨hs, hi⟩ := ih (restoreStockForItem now db it)
    obtain ⟨hs', hi'⟩ := restore_frame now db it
    exact ⟨hs.trans hs', hi.trans hi'⟩


/-! ## Elimination lemmas for the sale-creation path -/

theorem createSaleRepo_ok_elim {env : Env} {db : DB} {s : Sale}
    {res : Sale × DB} (h : createSaleRepo env db s = .ok res) :
    env.headerInsertOk = true ∧
    res.1 = { s with id := env.newSaleId,
                     createdAt := env.now, updatedAt := env.now } ∧
    res.2 = { db with sales := db.sales ++ [res.1] } := by
  unfold createSaleRepo at h
  split at h
  · next hok =>
    injection h with h
    subst h
    exact ⟨hok, rfl, rfl⟩
  · cases h

theorem createSaleItemsRepo_ok_elim {env : Env} {db : DB}
    {items : List SaleItem} {db' : DB}
    (h : createSaleItemsRepo env db items = .ok db') :
    env.itemsInsertOk = true ∧
    db' = { db with
            saleItems := db.saleItems ++
              items.mapIdx fun i it =>
                { it with id := env.itemIdBase + i, createdAt := env.now } } := by
  unfold createSaleItemsRepo at h
  split at h
  · cases h
  · split at h
    · next hok =>
      injection h with h
      exact ⟨hok, h.symm⟩
    · cases h

theorem createSale_ok_elim {env : Env} {db : DB} {req : CreateSaleRequest}
    {userId : Nat} {s : Sale} {items : List SaleItem} {db' : DB}
    (h : createSale env db req userId = (.ok (s, items), db')) :
    validCreateSaleRequest req = true ∧
    ∃ totalAmount rawItems db2,
      processItems db req.items = .ok (totalAmount, rawItems) ∧
      s.totalAmount = totalAmount ∧
      items = rawItems.map (fun it => { it with saleId := env.newSaleId }) ∧
      db2.products = db.products ∧
      db' = items.foldl (deductStockForItem env.now) db2 := by
  unfold createSale at h
  split at h
  · simp at h
  · rename_i hval
    split at h
    · simp at h
    · split at h
      · simp at h
      · rename_i totalAmount rawItems hpi
        simp only [] at h
        split at h
        · simp at h
        · rename_i savedSale db1 hcr
          obtain ⟨-, hres1, hres2⟩ := createSaleRepo_ok_elim hcr
          dsimp only at hres1 hres2
          split at h
          · simp at h
          · rename_i db2 hci
            obtain ⟨-, hdb2⟩ := createSaleItemsRepo_ok_elim hci
            rw [Prod.mk.injEq] at h
            obtain ⟨hok, hdb'⟩ := h
            injection hok with hok
            rw [Prod.mk.injEq] at hok
            obtain ⟨hs, hitems⟩ := hok
            refine ⟨by simpa using hval, totalAmount, rawItems, db2,
              hpi, ?_, ?_, ?_, ?_⟩
            · rw [← hs, hres1]
            · rw [← hitems]
              simp only [hres1]
            · rw [hdb2, hres2]
            · rw [← hdb', ← hitems]

/-! ## Characterization of the stock-check loop -/

theorem processItems_error_of_failed_check {db : DB} :
    ∀ {reqs : List SaleItemRequest},
      (∃ r ∈ reqs, checkStock db r.productId r.quantity = none) →
      ∃ pid, processItems db reqs = .error (.insufficientStock pid)
  | [], h => absurd h (by simp)
  | r :: rest, h => by
    cases hc : checkStock db r.productId r.quantity with
    | none => exact ⟨r.productId, by simp [processItems, hc]⟩
    | some p =>
      have hrest : ∃ x ∈ rest, checkStock db x.productId x.quantity = none := by
        obtain ⟨x, hx, hnone⟩ := h
        rcases List.mem_cons.mp hx with rfl | hx'
        · rw [hc] at hnone; cases hnone
        · exact ⟨x, hx', hnone⟩
      obtain ⟨pid, herr⟩ := processItems_error_of_failed_check hrest
      exact ⟨pid, by simp [processItems, hc, herr]⟩

theorem processItems_ok_elim {db : DB} :
    ∀ {reqs : List SaleItemRequest} {total : Rat} {its : List SaleItem},
      processItems db reqs = .ok (total, its) →
      total = (its.map SaleItem.totalPrice).sum ∧
      List.Forall₂ (fun (r : SaleItemRequest) (it : SaleItem) =>
        it.productId = r.productId ∧ it.quantity = r.quantity ∧
        ∃ p, checkStock db r.productId r.quantity = some p ∧
             it.unitPrice = p.unitPrice ∧
             it.totalPrice = p.unitPrice * (r.quantity : Rat)) reqs its
  | [], total, its, h => by
    unfold processItems at h
    injection h with h
    rw [Prod.mk.injEq] at h
    obtain ⟨h1, h2⟩ := h
    subst h2
    exact ⟨by simpa using h1.symm, List.Forall₂.nil⟩
  | r :: rest, total, its, h => by
    unfold processItems at h
    cases hc : checkStock db r.productId r.quantity with
    | none => rw [hc] at h; cases h
    | some p =>
      rw [hc] at h
      cases hrest : processItems db rest with
      | error e => rw [hrest] at h; cases h
      | ok res =>
        obtain ⟨restTotal, restItems⟩ := res
        rw [hrest] at h
        injection h with h
        rw [Prod.mk.injEq] at h
        obtain ⟨h1, h2⟩ := h
        obtain ⟨ihsum, ihall⟩ := processItems_ok_elim hrest
        subst h2
        constructor
        · rw [← h1, List.map_cons, List.sum_cons, ihsum]
        · exact List.forall₂_cons.mpr ⟨⟨rfl, rfl, p, hc, rfl, rfl⟩, ihall⟩

/-! ## Uniqueness bridges between `CheckStock` and `FindByID` -/

theorem checkStock_none_of_low_stock {db : DB} {pid : Nat} {q : Int}
    {p : Product} (hids : (db.products.map Product.id).Nodup)
    (hfind : findProductByID db pid = some p)
    (hlow : p.stockQuantity < q) :
    checkStock db pid q = none := by
  cases hc : checkStock db pid q with
  | none => rfl
  | some p2 =>
    have hm2 : p2 ∈ db.products := List.mem_of_find?_eq_some hc
    have hb2 : stockMatch pid q p2 = true := List.find?_some hc
    obtain ⟨hid2, -, hq2⟩ := of_decide_eq_true hb2
    have hm1 : p ∈ db.products := List.mem_of_find?_eq_some hfind
    have hb1 : prodMatch pid p = true := List.find?_some hfind
    obtain ⟨hid1, -⟩ := of_decide_eq_true hb1
    have hpp : p = p2 :=
      List.inj_on_of_nodup_map hids hm1 hm2 (hid1.trans hid2.symm)
    subst hpp
    omega

theorem findProduct_of_checkStock_some {db : DB} {pid : Nat} {q : Int}
    {p : Product} (hids : (db.products.map Product.id).Nodup)
    (hc : checkStock db pid q = some p) :
    findProductByID db pid = some p := by
  have hm : p ∈ db.products := List.mem_of_find?_eq_some hc
  have hb : stockMatch pid q p = true := List.find?_some hc
  obtain ⟨hid, hdel, -⟩ := of_decide_eq_true hb
  cases hf : findProductByID db pid with
  | none =>
    have hsome : (db.products.find? (prodMatch pid)).isSome := by
      rw [List.find?_isSome]
      exact ⟨p, hm, decide_eq_true ⟨hid, hdel⟩⟩
    unfold findProductByID at hf
    rw [hf] at hsome
    cases hsome
  | some p1 =>
    have hm1 : p1 ∈ db.products := List.mem_of_find?_eq_some hf
    have hb1 : prodMatch pid p1 = true := List.find?_some hf
    obtain ⟨hid1, -⟩ := of_decide_eq_true hb1
    rw [List.inj_on_of_nodup_map hids hm1 hm (hid1.trans hid.symm)]

/-! ## Transport along the request/line-item correspondence -/

/-- Total quantity a list of request lines asks for, per product. -/
def soldQtyList (reqs : List SaleItemRequest) (pid : Nat) : Int :=
  ((reqs.filter fun r => decide (r.productId = pid)).map
    SaleItemRequest.quantity).sum

theorem soldQty_eq (req : CreateSaleRequest) (pid : Nat) :
    soldQty req pid = soldQtyList req.items pid := rfl

theorem soldQtyList_cons (r : SaleItemRequest) (reqs : List SaleItemRequest)
    (pid : Nat) :
    soldQtyList (r :: reqs) pid
      = (if r.productId = pid then r.quantity else 0) + soldQtyList reqs pid := by
  unfold soldQtyList
  by_cases h : r.productId = pid
  · rw [if_pos h, List.filter_cons_of_pos (by simpa using h), List.map_cons,
      List.sum_cons]
  · rw [if_neg h, List.filter_cons_of_neg (by simpa using h), zero_add]

theorem soldInItems_eq_of_forall₂ {reqs : List SaleItemRequest}
    {its : List SaleItem}
    (h : List.Forall₂ (fun (r : SaleItemRequest) (it : SaleItem) =>
           it.productId = r.productId ∧ it.quantity = r.quantity) reqs its)
    (pid : Nat) : soldInItems its pid = soldQtyList reqs pid := by
  induction h with
  | nil => rfl
  | cons hrel hrest ih =>
    rw [soldInItems_cons, soldQtyList_cons, ih, hrel.1, hrel.2]

theorem itemQty_nonneg_of_forall₂ {reqs : List SaleItemRequest}
    {its : List SaleItem}
    (hv : ∀ r ∈ reqs, 1 ≤ r.quantity)
    (h : List.Forall₂ (fun (r : SaleItemRequest) (it : SaleItem) =>
           it.quantity = r.quantity) reqs its) :
    ∀ it ∈ its, 0 ≤ it.quantity := by
  induction h with
  | nil => exact fun it hit => absurd hit (by simp)
  | cons hrel hrest ih =>
    intro it hit
    rcases List.mem_cons.mp hit with rfl | hit'
    · have := hv _ (List.mem_cons_self _ _)
      omega
    · exact ih (fun r hr => hv r (List.mem_cons_of_mem _ hr)) it hit'

theorem soldInItems_map_saleId (sid : Nat) (items : List SaleItem)
    (pid : Nat) :
    soldInItems (items.map fun it => { it with saleId := sid }) pid
      = soldInItems items pid := by
  induction items with
  | nil => rfl
  | cons it items ih =>
    rw [List.map_cons]
    rw [soldInItems_cons, soldInItems_cons, ih]

theorem validCreateSaleRequest_elim {req : CreateSaleRequest}
    (h : validCreateSaleRequest req = true) :
    req.items ≠ [] ∧ ∀ r ∈ req.items, 1 ≤ r.quantity := by
  unfold validCreateSaleRequest at h
  rw [Bool.and_eq_true] at h
  obtain ⟨h1, h2⟩ := h
  constructor
  · intro hnil
    rw [hnil] at h1
    cases h1
  · intro r hr
    have := List.all_eq_true.mp h2 r hr
    exact of_decide_eq_true this


/-! ## Concrete data for witnesses -/

/-- A one-product catalogue: 10 in stock, unit price 5. -/
def demoProduct : Product :=
  { id := 1, name := "widget", unitPrice := 5, costPrice := 3,
    stockQuantity := 10, minStockLevel := 5,
    createdAt := 0, updatedAt := 0, deletedAt := none }

/-- Initial state with one product and no sales. -/
def demoDB : DB := { products := [demoProduct], sales := [], saleItems := [] }

/-- Environment of a fully successful run. -/
def demoEnv : Env :=
  { now := 1000, newSaleId := 7, itemIdBase := 20,
    invoiceNumber := "INV-20240101-0001",
    headerInsertOk := true, itemsInsertOk := true }

/-- Environment of a run whose batched item INSERT fails after the header
INSERT succeeded (a storage-level failure between the two statements). -/
def itemsFailEnv : Env :=
  { now := 1000, newSaleId := 7, itemIdBase := 20,
    invoiceNumber := "INV-20240101-0001",
    headerInsertOk := true, itemsInsertOk := false }

/-- Cart asking for 3 units of product 1. -/
def demoReq : CreateSaleRequest := { items := [{ productId := 1, quantity := 3 }] }

/-- The sale header the successful demo run persists. -/
def demoSaleAfter : Sale :=
  { id := 7, invoiceNumber := "INV-20240101-0001", userId := 9,
    totalAmount := 15, status := .completed,
    createdAt := 1000, updatedAt := 1000, deletedAt := none }

/-- The linked line items the successful demo run returns. -/
def demoItemsAfter : List SaleItem :=
  [{ id := 0, saleId := 7, productId := 1, quantity := 3,
     unitPrice := 5, totalPrice := 15, createdAt := 0 }]

/-! ## Claims -/

/-- C1: a CreateSale request containing a line item whose quantity exceeds
the stock of the (existing, live) product it references is rejected with
the insufficient-stock error, and the state is returned untouched: no
stock is mutated and neither the header nor any item is persisted, no
matter which item of the request is the offending one. -/
theorem createSale_insufficientStock_rejects_all
    (env : Env) (db : DB) (req : CreateSaleRequest) (userId : Nat)
    (hids : (db.products.map Product.id).Nodup)
    (hvalid : validCreateSaleRequest req = true)
    (hbad : ∃ r ∈ req.items, ∃ p, findProductByID db r.productId = some p ∧
            p.stockQuantity < r.quantity) :
    ∃ pid, createSale env db req userId
      = (.error (.insufficientStock pid), db) := by
  have hfail : ∃ r ∈ req.items, checkStock db r.productId r.quantity = none := by
    obtain ⟨r, hr, p, hfind, hlow⟩ := hbad
    exact ⟨r, hr, checkStock_none_of_low_stock hids hfind hlow⟩
  obtain ⟨pid, herr⟩ := processItems_error_of_failed_check hfail
  have hne := (validCreateSaleRequest_elim hvalid).1
  have hempty : req.items.isEmpty = false := by
    cases hitems : req.items with
    | nil => exact absurd hitems hne
    | cons a l => rfl
  exact ⟨pid, by simp [createSale, hvalid, hempty, herr]⟩

/-- Witness for C1: asking for 30 units of a product with stock 10 is
rejected with the insufficient-stock error and leaves the state unchanged. -/
theorem createSale_insufficientStock_rejects_all_witness :
    ∃ pid, createSale demoEnv demoDB
        { items := [{ productId := 1, quantity := 30 }] } 9
      = (.error (.insufficientStock pid), demoDB) :=
  createSale_insufficientStock_rejects_all demoEnv demoDB
    { items := [{ productId := 1, quantity := 30 }] } 9
    (by decide) (by decide)
    ⟨{ productId := 1, quantity := 30 }, by decide, demoProduct, rfl, by decide⟩

/-- C2 (code bug): when the batched line-item INSERT fails after the header
INSERT succeeded, `CreateSale` returns an error but the sale header stays
durably persisted with no line items — a header-without-items state that
the specification rules out.  Evaluated at a concrete failing run. -/
theorem createSale_header_without_items :
    (createSale itemsFailEnv demoDB demoReq 9).1
        = .error .createSaleItemsFailed ∧
    ((createSale itemsFailEnv demoDB demoReq 9).2.sales.map
        Sale.invoiceNumber) = ["INV-20240101-0001"] ∧
    (createSale itemsFailEnv demoDB demoReq 9).2.saleItems = [] ∧
    (createSale itemsFailEnv demoDB demoReq 9).2.products
        = demoDB.products :=
  ⟨rfl, rfl, rfl, rfl⟩

/-- C3: for a successful CreateSale, the header total equals the sum of
the line totals; line by line, the quantity is the requested one, the
unit price is the price of the referenced product as read at stock-check
time (the pre-call state `db`), and the line total is quantity times that
snapshotted price. -/
theorem createSale_total_amount
    (env : Env) (db : DB) (req : CreateSaleRequest) (userId : Nat)
    (s : Sale) (items : List SaleItem) (db' : DB)
    (hids : (db.products.map Product.id).Nodup)
    (hok : createSale env db req userId = (.ok (s, items), db')) :
    s.totalAmount = (items.map SaleItem.totalPrice).sum ∧
    List.Forall₂ (fun (r : SaleItemRequest) (it : SaleItem) =>
      it.quantity = r.quantity ∧
      (∃ p, findProductByID db r.productId = some p ∧
            it.unitPrice = p.unitPrice) ∧
      it.totalPrice = it.unitPrice * (it.quantity : Rat)) req.items items := by
  obtain ⟨hval, total, raw, db2, hpi, hsamt, hitems, hprod, hfold⟩ :=
    createSale_ok_elim hok
  obtain ⟨hsum, hall⟩ := processItems_ok_elim hpi
  constructor
  · rw [hsamt, hsum, hitems, List.map_map]
    rfl
  · rw [hitems, List.forall₂_map_right_iff]
    refine hall.imp ?_
    rintro r it ⟨hpid, hq, p, hc, hup, htp⟩
    refine ⟨hq, ⟨p, findProduct_of_checkStock_some hids hc, hup⟩, ?_⟩
    show it.totalPrice = it.unitPrice * (it.quantity : Rat)
    rw [htp, hup, hq]

/-- Witness for C3: the demo run sells 3 units at snapshotted price 5 and
records a total of 15. -/
theorem createSale_total_amount_witness :
    demoSaleAfter.totalAmount
        = (demoItemsAfter.map SaleItem.totalPrice).sum ∧
    List.Forall₂ (fun (r : SaleItemRequest) (it : SaleItem) =>
      it.quantity = r.quantity ∧
      (∃ p, findProductByID demoDB r.productId = some p ∧
            it.unitPrice = p.unitPrice) ∧
      it.totalPrice = it.unitPrice * (it.quantity : Rat))
      demoReq.items demoItemsAfter :=
  createSale_total_amount demoEnv demoDB demoReq 9 demoSaleAfter
    demoItemsAfter (createSale demoEnv demoDB demoReq 9).2 (by decide)
    (by norm_num [createSale, validCreateSaleRequest, processItems,
      checkStock, stockMatch, createSaleRepo, createSaleItemsRepo,
      deductStockForItem, findProductByID, prodMatch, updateStock,
      demoEnv, demoDB, demoReq, demoProduct, demoSaleAfter, demoItemsAfter])

/-- C4: after a successful CreateSale, every product's observable stock is
its previous stock minus the total quantity the request sold of it,
floored at zero; products the request does not touch keep their stock. -/
theorem createSale_stock_deduction
    (env : Env) (db : DB) (req : CreateSaleRequest) (userId : Nat)
    (s : Sale) (items : List SaleItem) (db' : DB)
    (hnn : stocksNonneg db)
    (hok : createSale env db req userId = (.ok (s, items), db'))
    (pid : Nat) :
    stockOf db' pid
      = (stockOf db pid).map fun v => clampSub v (soldQty req pid) := by
  obtain ⟨hval, total, raw, db2, hpi, hsamt, hitems, hprod, hfold⟩ :=
    createSale_ok_elim hok
  obtain ⟨-, hall⟩ := processItems_ok_elim hpi
  have hv := (validCreateSaleRequest_elim hval).2
  have hall2 : List.Forall₂ (fun (r : SaleItemRequest) (it : SaleItem) =>
      it.productId = r.productId ∧ it.quantity = r.quantity)
      req.items raw :=
    hall.imp fun r it h => ⟨h.1, h.2.1⟩
  have hq : ∀ it ∈ items, 0 ≤ it.quantity := by
    rw [hitems]
    intro it hit
    obtain ⟨it0, hit0, rfl⟩ := List.mem_map.mp hit
    exact itemQty_nonneg_of_forall₂ hv (hall2.imp fun r it h => h.2) it0 hit0
  have hnn2 : stocksNonneg db2 := by
    intro p hp
    rw [hprod] at hp
    exact hnn p hp
  have hso : stockOf db2 pid = stockOf db pid := by
    unfold stockOf findProductByID
    rw [hprod]
  rw [hfold, stockOf_deduct_foldl env.now items db2 pid hnn2 hq, hso,
    hitems, soldInItems_map_saleId, soldInItems_eq_of_forall₂ hall2 pid,
    soldQty_eq]

/-- Witness for C4: the demo run leaves product 1 with stock
clampSub 10 3 = 7. -/
theorem createSale_stock_deduction_witness :
    stockOf (createSale demoEnv demoDB demoReq 9).2 1
      = (stockOf demoDB 1).map fun v => clampSub v (soldQty demoReq 1) :=
  createSale_stock_deduction demoEnv demoDB demoReq 9 demoSaleAfter
    demoItemsAfter (createSale demoEnv demoDB demoReq 9).2
    (by unfold stocksNonneg; decide)
    (by norm_num [createSale, validCreateSaleRequest, processItems,
      checkStock, stockMatch, createSaleRepo, createSaleItemsRepo,
      deductStockForItem, findProductByID, prodMatch, updateStock,
      demoEnv, demoDB, demoReq, demoProduct, demoSaleAfter, demoItemsAfter]) 1


/-! ## Lemmas for the status-update path -/

theorem validStatusRequest_of_parse {st : String} {x : SaleStatus}
    (h : parseSaleStatus st = some x) : validStatusRequest st = true := by
  unfold parseSaleStatus at h
  unfold validStatusRequest
  split_ifs at h with h1 h2 h3
  · simp [h1]
  · simp [h2]
  · simp [h3]

theorem findSale_statusWrite_self (now : Int) (db : DB) (sid : Nat)
    (st : SaleStatus) :
    findSaleByID (statusWrite now db sid st) sid
      = (findSaleByID db sid).map fun s =>
          { s with status := st, updatedAt := now } :=
  find?_map_ite_self (saleMatch sid) _ (saleMatch_status_update sid st now)
    db.sales

theorem findSale_congr_sales {db db' : DB} (h : db'.sales = db.sales)
    (sid : Nat) : findSaleByID db' sid = findSaleByID db sid := by
  unfold findSaleByID
  rw [h]

/-- C5: cancelling a completed sale restores, for every product, exactly
the total quantity that product contributed to the sale's stored line
items, and the call succeeds with the sale now cancelled. -/
theorem updateSaleStatus_cancel_restores
    (now : Int) (db : DB) (sid : Nat) (s0 : Sale)
    (hnn : stocksNonneg db)
    (hqty : ∀ it ∈ db.saleItems, 0 ≤ it.quantity)
    (hfind : findSaleByID db sid = some s0)
    (hst : s0.status = SaleStatus.completed)
    (pid : Nat) :
    stockOf (updateSaleStatus now db sid "cancelled").2 pid
      = (stockOf db pid).map (· + restoredQty db sid pid) ∧
    ∃ s1, (updateSaleStatus now db sid "cancelled").1 = .ok s1 ∧
          s1.status = SaleStatus.cancelled := by
  have hrepo := @updateSaleStatusRepo_ok_of now db sid SaleStatus.cancelled
    (any_of_find?_some hfind)
  have hfind1 : findSaleByID (statusWrite now db sid SaleStatus.cancelled) sid
      = some { s0 with status := SaleStatus.cancelled, updatedAt := now } := by
    rw [findSale_statusWrite_self, hfind, Option.map_some']
  have hsales2 :
      (restoreProductStock now
          (statusWrite now db sid SaleStatus.cancelled) sid).sales
        = (statusWrite now db sid SaleStatus.cancelled).sales := by
    unfold restoreProductStock
    exact (restore_foldl_frame now _ _).1
  have hfind2 : findSaleByID
      (restoreProductStock now
        (statusWrite now db sid SaleStatus.cancelled) sid) sid
      = some { s0 with status := SaleStatus.cancelled, updatedAt := now } := by
    rw [findSale_congr_sales hsales2, hfind1]
  have heq : updateSaleStatus now db sid "cancelled"
      = (.ok { s0 with status := SaleStatus.cancelled, updatedAt := now },
         restoreProductStock now
           (statusWrite now db sid SaleStatus.cancelled) sid) := by
    simp only [updateSaleStatus,
      show (!validStatusRequest "cancelled") = false from rfl,
      Bool.false_eq_true, if_false, hfind,
      show parseSaleStatus "cancelled" = some SaleStatus.cancelled from rfl,
      hrepo, hst, and_self, eq_self_iff_true, if_true, hfind2]
  rw [heq]
  refine ⟨?_, _, rfl, rfl⟩
  have hnn1 : stocksNonneg (statusWrite now db sid SaleStatus.cancelled) :=
    fun p hp => hnn p hp
  have hqty' : ∀ it ∈ findSaleItems
      (statusWrite now db sid SaleStatus.cancelled) sid, 0 ≤ it.quantity :=
    fun it hit => hqty it (List.mem_filter.mp hit).1
  show stockOf (restoreProductStock now
      (statusWrite now db sid SaleStatus.cancelled) sid) pid
    = (stockOf db pid).map (· + restoredQty db sid pid)
  unfold restoreProductStock
  rw [stockOf_restore_foldl now _ _ pid hnn1 hqty']
  rfl


/-- A completed sale of 4 units of product 1, for the cancellation runs. -/
def cancelSale : Sale :=
  { id := 3, invoiceNumber := "INV-20240101-0002", userId := 9,
    totalAmount := 20, status := .completed,
    createdAt := 0, updatedAt := 0, deletedAt := none }

/-- State holding `cancelSale` and its single line item. -/
def cancelDB : DB :=
  { products := [demoProduct],
    sales := [cancelSale],
    saleItems := [{ id := 11, saleId := 3, productId := 1, quantity := 4,
                    unitPrice := 5, totalPrice := 20, createdAt := 0 }] }

/-- Witness for C5: cancelling the demo sale raises product 1 stock by 4
and reports the sale cancelled. -/
theorem updateSaleStatus_cancel_restores_witness :
    stockOf (updateSaleStatus 2000 cancelDB 3 "cancelled").2 1
      = (stockOf cancelDB 1).map (· + restoredQty cancelDB 3 1) ∧
    ∃ s1, (updateSaleStatus 2000 cancelDB 3 "cancelled").1 = .ok s1 ∧
          s1.status = SaleStatus.cancelled :=
  updateSaleStatus_cancel_restores 2000 cancelDB 3 cancelSale
    (by unfold stocksNonneg; decide) (by decide) (by rfl) rfl 1

/-- C6: any status transition other than completed → cancelled is a pure
status write: products and line items are untouched, every live row of
the targeted sale gets only its status and updated_at changed, and the
call succeeds. -/
theorem updateSaleStatus_pure_frame
    (now : Int) (db : DB) (sid : Nat) (s0 : Sale) (reqStatus : String)
    (newStatus : SaleStatus)
    (hfind : findSaleByID db sid = some s0)
    (hparse : parseSaleStatus reqStatus = some newStatus)
    (hnot : ¬(s0.status = SaleStatus.completed ∧
              newStatus = SaleStatus.cancelled)) :
    (updateSaleStatus now db sid reqStatus).2.products = db.products ∧
    (updateSaleStatus now db sid reqStatus).2.saleItems = db.saleItems ∧
    (updateSaleStatus now db sid reqStatus).2.sales
      = db.sales.map (fun s => if saleMatch sid s then
          { s with status := newStatus, updatedAt := now } else s) ∧
    ∃ s1, (updateSaleStatus now db sid reqStatus).1 = .ok s1 := by
  have hval := validStatusRequest_of_parse hparse
  have hrepo := @updateSaleStatusRepo_ok_of now db sid newStatus
    (any_of_find?_some hfind)
  have hfind1 : findSaleByID (statusWrite now db sid newStatus) sid
      = some { s0 with status := newStatus, updatedAt := now } := by
    rw [findSale_statusWrite_self, hfind, Option.map_some']
  have heq : updateSaleStatus now db sid reqStatus
      = (.ok { s0 with status := newStatus, updatedAt := now },
         statusWrite now db sid newStatus) := by
    simp only [updateSaleStatus, hval, Bool.not_true, Bool.false_eq_true,
      if_false, hfind, hparse, hrepo, if_neg hnot, hfind1]
  rw [heq]
  exact ⟨rfl, rfl, rfl, _, rfl⟩

/-- Witness for C6: moving the completed demo sale to `pending` leaves
stock and items alone and only rewrites that sale row. -/
theorem updateSaleStatus_pure_frame_witness :
    (updateSaleStatus 2000 cancelDB 3 "pending").2.products
        = cancelDB.products ∧
    (updateSaleStatus 2000 cancelDB 3 "pending").2.saleItems
        = cancelDB.saleItems ∧
    (updateSaleStatus 2000 cancelDB 3 "pending").2.sales
      = cancelDB.sales.map (fun s => if saleMatch 3 s then
          { s with status := SaleStatus.pending, updatedAt := 2000 }
        else s) ∧
    ∃ s1, (updateSaleStatus 2000 cancelDB 3 "pending").1 = .ok s1 :=
  updateSaleStatus_pure_frame 2000 cancelDB 3 cancelSale "pending"
    SaleStatus.pending (by rfl) rfl (by decide)


/-- C7: over a range of parsed dates, the repository report counts exactly
the non-deleted completed sales whose creation timestamp lies in the
inclusive range, sums their totals as revenue, and sums their line-item
quantities as items sold; when no sale is soft-deleted (the system never
soft-deletes sales) this is exactly the spec's qualifying set. -/
theorem getSalesReport_scope
    (db : DB) (startDay endDay : Int)
    (hrange : startDay ≤ endDay)
    (hnodel : ∀ s ∈ db.sales, s.deletedAt = none) :
    (getSalesReportRepo db (dateToTime startDay)
        (dateToTime endDay)).totalSales
      = ((reportQualifying db (dateToTime startDay)
          (dateToTime endDay)).length : Int) ∧
    (getSalesReportRepo db (dateToTime startDay)
        (dateToTime endDay)).totalRevenue
      = ((reportQualifying db (dateToTime startDay)
          (dateToTime endDay)).map Sale.totalAmount).sum ∧
    (getSalesReportRepo db (dateToTime startDay)
        (dateToTime endDay)).totalItemsSold
      = ((reportQualifying db (dateToTime startDay)
          (dateToTime endDay)).map (saleQuantitySum db)).sum := by
  have hfilter :
      db.sales.filter
        (qualifiesForReport (dateToTime startDay) (dateToTime endDay))
      = reportQualifying db (dateToTime startDay) (dateToTime endDay) := by
    unfold reportQualifying
    refine List.filter_congr ?_
    intro s hs
    unfold qualifiesForReport
    rw [hnodel s hs]
    refine decide_eq_decide.mpr ?_
    constructor
    · exact fun h => h.2
    · exact fun h => ⟨rfl, h⟩
  unfold getSalesReportRepo
  rw [hfilter]
  exact ⟨rfl, rfl, rfl⟩

/-- Witness for C7: the one-completed-sale state over days [0, 1]. -/
theorem getSalesReport_scope_witness :
    (getSalesReportRepo cancelDB (dateToTime 0)
        (dateToTime 1)).totalSales
      = ((reportQualifying cancelDB (dateToTime 0)
          (dateToTime 1)).length : Int) ∧
    (getSalesReportRepo cancelDB (dateToTime 0)
        (dateToTime 1)).totalRevenue
      = ((reportQualifying cancelDB (dateToTime 0)
          (dateToTime 1)).map Sale.totalAmount).sum ∧
    (getSalesReportRepo cancelDB (dateToTime 0)
        (dateToTime 1)).totalItemsSold
      = ((reportQualifying cancelDB (dateToTime 0)
          (dateToTime 1)).map (saleQuantitySum cancelDB)).sum :=
  getSalesReport_scope cancelDB 0 1 (by decide) (by decide)

/-- C8: a range with no qualifying completed sale reports all-zero totals
and a zero average with no division fault; in general the average equals
revenue divided by count when the count is positive and 0 otherwise. -/
theorem getSalesReport_empty_and_average :
    (∀ (db : DB) (startT endT : Int),
        (∀ s ∈ db.sales, qualifiesForReport startT endT s = false) →
        (getSalesReportRepo db startT endT).totalSales = 0 ∧
        (getSalesReportRepo db startT endT).totalRevenue = 0 ∧
        (getSalesReportRepo db startT endT).totalItemsSold = 0 ∧
        (getSalesReportRepo db startT endT).averageSale = 0) ∧
    (∀ (db : DB) (startT endT : Int),
        (getSalesReportRepo db startT endT).averageSale
          = if 0 < (getSalesReportRepo db startT endT).totalSales then
              (getSalesReportRepo db startT endT).totalRevenue
                / ((getSalesReportRepo db startT endT).totalSales : Rat)
            else 0) := by
  constructor
  · intro db startT endT hempty
    have hnil : db.sales.filter (qualifiesForReport startT endT) = [] :=
      List.filter_eq_nil_iff.mpr fun s hs => by rw [hempty s hs]; simp
    simp [getSalesReportRepo, hnil]
  · intro db startT endT
    simp only [getSalesReportRepo]

/-- Witness for C8: the sale-free state reports zeros over [0, 0]. -/
theorem getSalesReport_empty_witness :
    (getSalesReportRepo demoDB 0 0).totalSales = 0 ∧
    (getSalesReportRepo demoDB 0 0).totalRevenue = 0 ∧
    (getSalesReportRepo demoDB 0 0).totalItemsSold = 0 ∧
    (getSalesReportRepo demoDB 0 0).averageSale = 0 :=
  getSalesReport_empty_and_average.1 demoDB 0 0 (by decide)

/-- C9: the sale-listing handler defaults an absent page to 1 and an
absent limit to 10, accepts limit 100, rejects any supplied limit outside
[1, 100] (for instance 101), and rejects any supplied page below 1. -/
theorem listSales_pagination :
    parseListParams none none = .ok (1, 10) ∧
    (∀ p : Int, 0 < p → parseListParams (some p) none = .ok (p, 10)) ∧
    (∀ l : Int, 0 < l → l ≤ 100 →
        parseListParams none (some l) = .ok (1, l)) ∧
    parseListParams (some 1) (some 100) = .ok (1, 100) ∧
    (∀ (pageParam : Option Int) (l : Int), l < 1 ∨ 100 < l →
        ∃ e, parseListParams pageParam (some l) = .error e) ∧
    (∀ (p : Int) (limitParam : Option Int), p < 1 →
        parseListParams (some p) limitParam = .error .invalidPage) := by
  refine ⟨rfl, ?_, ?_, by rfl, ?_, ?_⟩
  · intro p hp
    simp [parseListParams, parsePageParam, parseLimitParam, hp]
  · intro l h1 h2
    simp [parseListParams, parsePageParam, parseLimitParam, h1, h2]
  · intro pageParam l hl
    have hbad : ¬(0 < l ∧ l ≤ 100) := by omega
    cases pageParam with
    | none =>
      exact ⟨.invalidLimit,
        by simp [parseListParams, parsePageParam, parseLimitParam, hbad]⟩
    | some p =>
      by_cases hp : 0 < p
      · exact ⟨.invalidLimit,
          by simp [parseListParams, parsePageParam, parseLimitParam, hp, hbad]⟩
      · exact ⟨.invalidPage,
          by simp [parseListParams, parsePageParam, parseLimitParam, hp]⟩
  · intro p limitParam hp
    have hneg : ¬ 0 < p := by omega
    simp [parseListParams, parsePageParam, hneg]

/-- Witness for C9: limit 101 with a valid page is rejected. -/
theorem listSales_pagination_witness :
    ∃ e, parseListParams (some 1) (some 101) = .error e :=
  listSales_pagination.2.2.2.2.1 (some 1) 101 (Or.inr (by decide))

/-- C10: the reporting service rejects any parsed, well-ordered date range
that spans more than 365 days, an extra precondition enforced before the
repository is consulted. -/
theorem getSalesReportService_range_cap
    (db : DB) (startDay endDay : Int)
    (hle : startDay ≤ endDay) (hspan : 365 < endDay - startDay) :
    getSalesReportService db (some startDay) (some endDay)
      = .error .rangeTooLong := by
  have hpos : (0:Int) < nsPerDay := by norm_num [nsPerDay]
  have h1 : ¬ (dateToTime endDay < dateToTime startDay) := by
    unfold dateToTime
    have := (mul_le_mul_right hpos).mpr hle
    omega
  have h2 : maxReportRange < dateToTime endDay - dateToTime startDay := by
    have hmul : (365:Int) * nsPerDay < (endDay - startDay) * nsPerDay :=
      (mul_lt_mul_right hpos).mpr hspan
    rw [sub_mul] at hmul
    unfold dateToTime maxReportRange
    unfold nsPerDay at hmul ⊢
    omega
  simp only [getSalesReportService]
  rw [if_neg h1, if_pos h2]

/-- Witness for C10: a 366-day range from day 0 to day 366 is rejected. -/
theorem getSalesReportService_range_cap_witness :
    getSalesReportService demoDB (some 0) (some 366)
      = .error .rangeTooLong :=
  getSalesReportService_range_cap demoDB 0 366 (by decide) (by decide)

end Inventory
